import Mathlib

/-!
Shallow embedding of the VN_StockAnalytics deterministic recommendation engine
(src/optimizer/allocation.py, src/rulebase/gating.py, src/data_access/features.py,
src/data_access/fundamental_features.py, src/rulebase/execution_rules.py,
src/llm_orchestrator/orchestrator.py).

Modelling conventions:
- Python floats are modelled as exact rationals (ℚ); float literals such as
  1e-12 or 1.2816 become the rationals 1/10^12 and 12816/10000.
- Python dicts are modelled as insertion-ordered association lists
  (List (String × β)) with key-overwriting insertion (`dinsert`).
- `math.sqrt` is irrational-valued; where the code calls it, the embedding
  takes the square-root value (or a square-root function) as an explicit
  parameter.  Theorems whose truth depends on its value add the defining
  hypothesis (0 ≤ s ∧ s * s = x); concrete witnesses use inputs whose square
  roots are exact rationals.
- Diagnostic / evidence strings keep their structure and branch content, but
  the decimal formatting of numbers embedded in them (f"{x:.2f}" etc.) is
  elided, since no verified property depends on it.
-/

/-- Python dict insertion: update the value in place if the key exists,
else append the new pair at the end (models `d[k] = v`). -/
def dinsert {β : Type} (k : String) (v : β) : List (String × β) → List (String × β)
  | [] => [(k, v)]
  | (k', v') :: rest => if k' = k then (k, v) :: rest else (k', v') :: dinsert k v rest

/-- Build a Python dict from a list of key/value pairs, later pairs
overwriting earlier ones (models a dict comprehension). -/
def dictOf {β : Type} (l : List (String × β)) : List (String × β) :=
  l.foldl (fun d kv => dinsert kv.1 kv.2 d) []

/-- Sum of a dict's values (models `sum(d.values())`). -/
def dsum (d : List (String × ℚ)) : ℚ := (d.map Prod.snd).sum

/-- Value-wise dict comprehension (models {k: f(v) for k, v in d.items()}). -/
def mapValues (f : ℚ → ℚ) (d : List (String × ℚ)) : List (String × ℚ) :=
  d.map fun kv => (kv.1, f kv.2)

/-- Python list slicing `l[:k]` for an integer k: a negative k counts from
the end of the list (`l[:-2]` drops the last two elements). -/
def pyTake {α : Type} (k : ℤ) (l : List α) : List α :=
  if 0 ≤ k then l.take k.toNat else l.take (l.length - (-k).toNat)

/-! ## src/optimizer/allocation.py -/

/-- AllocationConstraints (allocation.py). -/
structure AllocationConstraints where
  max_weight_per_stock : ℚ
  min_cash_weight : ℚ
  max_positions : ℤ
deriving DecidableEq, Repr

/-- AllocationInput (allocation.py). -/
structure AllocationInput where
  symbol : String
  expected_return : ℚ
  risk : ℚ
deriving DecidableEq, Repr

/-- AllocationResult (allocation.py); `weights` is the Python dict as an
insertion-ordered association list. -/
structure AllocationResult where
  weights : List (String × ℚ)
  cash_weight : ℚ
  diagnostics : List String
deriving DecidableEq, Repr

/-- The sort / scoring key `x.expected_return / max(x.risk, 1e-12)` used in
`allocate_weights`. -/
def scoreOf (c : AllocationInput) : ℚ := c.expected_return / max c.risk (1 / 10 ^ 12)

/-- Step 6 of the allocator: clamp each weight to max_weight_per_stock
(`{sym: min(w, constraints.max_weight_per_stock) for sym, w in raw.items()}`). -/
def step_clamp (maxw : ℚ) (raw : List (String × ℚ)) : List (String × ℚ) :=
  mapValues (fun w => min w maxw) raw

/-- Step 7 of the allocator: if `used > investable and used > 0`, scale all
clamped weights by `investable / used`. -/
def step_capInvestable (investable : ℚ) (clamped : List (String × ℚ)) : List (String × ℚ) :=
  let used := dsum clamped
  if investable < used ∧ 0 < used then mapValues (fun w => w * (investable / used)) clamped
  else clamped

/-- Step 8 of the allocator: if `cash = 1 - used < min_cash_weight` and
`used > 0`, scale all weights by `(1 - min_cash_weight) / used` (the code's
`target_used / used`); otherwise weights are unchanged. -/
def step_minCash (minCash : ℚ) (clamped : List (String × ℚ)) : List (String × ℚ) :=
  let used := dsum clamped
  if 1 - used < minCash ∧ 0 < used then mapValues (fun w => w * ((1 - minCash) / used)) clamped
  else clamped

/-- Steps 5-8 of the allocator (lines 64-84 of allocation.py): build the raw
weight dict `{sym: investable * score / ssum}`, clamp, cap to the investable
budget, and enforce the minimum cash weight. -/
def allocNormal (picked : List AllocationInput) (scores : List ℚ) (ssum : ℚ)
    (constraints : AllocationConstraints) : List (String × ℚ) :=
  let investable := max 0 (1 - constraints.min_cash_weight)
  let raw := dictOf ((picked.zip scores).map fun cs => (cs.1.symbol, investable * (cs.2 / ssum)))
  step_minCash constraints.min_cash_weight
    (step_capInvestable investable (step_clamp constraints.max_weight_per_stock raw))

/-- `allocate_weights` (allocation.py, lines 40-87).  In the source the final
`cash` is always `1.0 - used` with `used = sum(clamped.values())` recomputed
after every rescale, so it is expressed here as `1 - dsum weights` of the
final weights.  The numeric parts of the final diagnostics string are elided
(only `picked={k}/{len}` is kept symbolically). -/
def allocate_weights (candidates : List AllocationInput) (top_n : ℤ)
    (constraints : AllocationConstraints) : AllocationResult :=
  if top_n ≤ 0 then
    { weights := [], cash_weight := 1, diagnostics := ["top_n<=0 -> 100% cash"] }
  else
    let pos := candidates.filter fun c => decide (0 < c.expected_return ∧ 0 < c.risk)
    if pos.isEmpty then
      { weights := [], cash_weight := 1, diagnostics := ["no positive candidates -> 100% cash"] }
    else
      let scored := List.insertionSort (fun x y => scoreOf y ≤ scoreOf x) pos
      let k := min (min top_n constraints.max_positions) (scored.length : ℤ)
      let picked := pyTake k scored
      let scores := picked.map fun c => max (scoreOf c) 0
      let ssum := scores.sum
      if ssum ≤ 0 then
        { weights := [], cash_weight := 1, diagnostics := ["scores sum to 0 -> 100% cash"] }
      else
        let weights := allocNormal picked scores ssum constraints
        { weights := weights, cash_weight := 1 - dsum weights,
          diagnostics := ["picked=" ++ toString k ++ "/" ++ toString scored.length ++
            " investable used cash"] }

/-- Scenario A of the spec, checked against the embedding: candidates
A(er=0.02, risk=0.1), B(er=0.01, risk=0.1); top_n=2, max_weight 0.6,
min_cash 0.1, max_positions 5 give weights {A: 0.6, B: 0.3} and cash 0.1. -/
example :
    (allocate_weights
      [⟨"A", 2/100, 1/10⟩, ⟨"B", 1/100, 1/10⟩] 2 ⟨6/10, 1/10, 5⟩).weights =
      [("A", 6/10), ("B", 3/10)] ∧
    (allocate_weights
      [⟨"A", 2/100, 1/10⟩, ⟨"B", 1/100, 1/10⟩] 2 ⟨6/10, 1/10, 5⟩).cash_weight = 1/10 := by
  norm_num +decide [allocate_weights, allocNormal, scoreOf, pyTake, dictOf, dinsert, dsum,
    mapValues, step_clamp, step_capInvestable, step_minCash, List.insertionSort,
    List.orderedInsert, Int.toNat, List.take, min_def, max_def]

/-! ### Helper lemmas about the allocator -/

/-- Every pair of `dinsert k v d` is either `(k, v)` or a pair of `d`. -/
theorem dinsert_forall {β : Type} (P : String × β → Prop) (k : String) (v : β)
    (d : List (String × β)) (hv : P (k, v)) (hd : ∀ kv ∈ d, P kv) :
    ∀ kv ∈ dinsert k v d, P kv := by
  induction d with
  | nil => simpa [dinsert] using hv
  | cons p tl ih =>
    obtain ⟨k', v'⟩ := p
    intro kv hkv
    rw [dinsert] at hkv
    split_ifs at hkv with hk
    · rcases List.mem_cons.mp hkv with h | h
      · exact h ▸ hv
      · exact hd _ (List.mem_cons_of_mem _ h)
    · rcases List.mem_cons.mp hkv with h | h
      · exact hd _ (h ▸ List.mem_cons_self _ _)
      · exact ih (fun kv h' => hd kv (List.mem_cons_of_mem _ h')) kv h

/-- Pairs of a fold of `dinsert`s all satisfy `P` when the seed and all
inserted pairs do. -/
theorem foldl_dinsert_forall {β : Type} (P : String × β → Prop) (l acc : List (String × β))
    (hacc : ∀ kv ∈ acc, P kv) (hl : ∀ kv ∈ l, P kv) :
    ∀ kv ∈ l.foldl (fun d kv => dinsert kv.1 kv.2 d) acc, P kv := by
  induction l generalizing acc with
  | nil => simpa using hacc
  | cons hd tl ih =>
    simp only [List.foldl_cons]
    exact ih _
      (dinsert_forall P hd.1 hd.2 acc (by simpa using hl hd (List.mem_cons_self _ _)) hacc)
      (fun kv h => hl kv (List.mem_cons_of_mem _ h))

/-- Pairs of `dictOf l` all satisfy `P` when all pairs of `l` do. -/
theorem dictOf_forall {β : Type} (P : String × β → Prop) (l : List (String × β))
    (hl : ∀ kv ∈ l, P kv) : ∀ kv ∈ dictOf l, P kv :=
  foldl_dinsert_forall P l [] (by simp) hl

/-- Sum of values after scaling every value by `s`. -/
theorem dsum_mapValues_mul (s : ℚ) (d : List (String × ℚ)) :
    dsum (mapValues (fun w => w * s) d) = dsum d * s := by
  induction d with
  | nil => simp [dsum, mapValues]
  | cons hd tl ih =>
    simp only [dsum, mapValues, List.map_cons, List.sum_cons] at ih ⊢
    rw [ih]; ring

/-- Value bounds are preserved by `step_capInvestable` when the investable
budget is nonnegative. -/
theorem step_capInvestable_bounds (investable B : ℚ) (hinv : 0 ≤ investable)
    (d : List (String × ℚ)) (hd : ∀ kv ∈ d, 0 ≤ kv.2 ∧ kv.2 ≤ B) :
    ∀ kv ∈ step_capInvestable investable d, 0 ≤ kv.2 ∧ kv.2 ≤ B := by
  intro kv hkv
  rw [step_capInvestable] at hkv
  split_ifs at hkv with h
  · rcases List.mem_map.mp hkv with ⟨kv', hkv', rfl⟩
    rcases hd kv' hkv' with ⟨h0, hB⟩
    have hscale0 : 0 ≤ investable / dsum d := div_nonneg hinv (le_of_lt h.2)
    have hscale1 : investable / dsum d ≤ 1 := (div_le_one h.2).mpr (le_of_lt h.1)
    constructor
    · exact mul_nonneg h0 hscale0
    · calc kv'.2 * (investable / dsum d) ≤ kv'.2 * 1 :=
            mul_le_mul_of_nonneg_left hscale1 h0
        _ = kv'.2 := mul_one _
        _ ≤ B := hB
  · exact hd kv hkv

/-- Value bounds are preserved by `step_minCash` when `min_cash_weight ≤ 1`. -/
theorem step_minCash_bounds (minCash B : ℚ) (hmc : minCash ≤ 1)
    (d : List (String × ℚ)) (hd : ∀ kv ∈ d, 0 ≤ kv.2 ∧ kv.2 ≤ B) :
    ∀ kv ∈ step_minCash minCash d, 0 ≤ kv.2 ∧ kv.2 ≤ B := by
  intro kv hkv
  rw [step_minCash] at hkv
  split_ifs at hkv with h
  · rcases List.mem_map.mp hkv with ⟨kv', hkv', rfl⟩
    rcases hd kv' hkv' with ⟨h0, hB⟩
    have htarget : 0 ≤ 1 - minCash := by linarith
    have hused : 1 - minCash ≤ dsum d := by linarith [h.1]
    have hscale0 : 0 ≤ (1 - minCash) / dsum d := div_nonneg htarget (le_of_lt h.2)
    have hscale1 : (1 - minCash) / dsum d ≤ 1 := (div_le_one h.2).mpr hused
    constructor
    · exact mul_nonneg h0 hscale0
    · calc kv'.2 * ((1 - minCash) / dsum d) ≤ kv'.2 * 1 :=
            mul_le_mul_of_nonneg_left hscale1 h0
        _ = kv'.2 := mul_one _
        _ ≤ B := hB
  · exact hd kv hkv

/-- After `step_minCash`, the resulting cash `1 - dsum` is at least
`min_cash_weight`, as long as `min_cash_weight ≤ 1`. -/
theorem step_minCash_cash (minCash : ℚ) (hmc : minCash ≤ 1) (d : List (String × ℚ)) :
    minCash ≤ 1 - dsum (step_minCash minCash d) := by
  rw [step_minCash]
  split_ifs with h
  · rw [dsum_mapValues_mul]
    have hne : dsum d ≠ 0 := ne_of_gt h.2
    have heq : dsum d * ((1 - minCash) / dsum d) = 1 - minCash := by
      field_simp
    rw [heq]; linarith
  · rcases not_and_or.mp h with h1 | h2
    · linarith [not_lt.mp h1]
    · linarith [not_lt.mp h2]

/-- In every branch of `allocate_weights` the returned cash weight is exactly
`1 - sum(weights)`. -/
theorem allocate_weights_cash_eq (candidates : List AllocationInput) (top_n : ℤ)
    (constraints : AllocationConstraints) :
    (allocate_weights candidates top_n constraints).cash_weight =
      1 - dsum (allocate_weights candidates top_n constraints).weights := by
  simp only [allocate_weights]
  split_ifs <;> simp [dsum]

/-- All weights produced by the normal path of the allocator lie in
`[0, max_weight_per_stock]`, given a positive score sum, nonnegative scores,
`0 ≤ max_weight_per_stock` and `min_cash_weight ≤ 1`. -/
theorem allocNormal_bounds (picked : List AllocationInput) (scores : List ℚ) (ssum : ℚ)
    (constraints : AllocationConstraints) (hssum : 0 < ssum)
    (hscores : ∀ s ∈ scores, 0 ≤ s)
    (hmaxw : 0 ≤ constraints.max_weight_per_stock)
    (hminc : constraints.min_cash_weight ≤ 1) :
    ∀ kv ∈ allocNormal picked scores ssum constraints,
      0 ≤ kv.2 ∧ kv.2 ≤ constraints.max_weight_per_stock := by
  have hinv : (0 : ℚ) ≤ max 0 (1 - constraints.min_cash_weight) := le_max_left _ _
  have hraw : ∀ kv ∈ dictOf (((picked.zip scores)).map fun cs =>
      (cs.1.symbol, max 0 (1 - constraints.min_cash_weight) * (cs.2 / ssum))),
      (0 : ℚ) ≤ kv.2 := by
    apply dictOf_forall
    intro kv hkv
    rcases List.mem_map.mp hkv with ⟨cs, hcs, rfl⟩
    have hs : 0 ≤ cs.2 := hscores cs.2 (List.of_mem_zip hcs).2
    exact mul_nonneg hinv (div_nonneg hs (le_of_lt hssum))
  have hclamp : ∀ kv ∈ step_clamp constraints.max_weight_per_stock
      (dictOf (((picked.zip scores)).map fun cs =>
        (cs.1.symbol, max 0 (1 - constraints.min_cash_weight) * (cs.2 / ssum)))),
      0 ≤ kv.2 ∧ kv.2 ≤ constraints.max_weight_per_stock := by
    intro kv hkv
    rcases List.mem_map.mp hkv with ⟨kv', h', rfl⟩
    exact ⟨le_min (hraw kv' h') hmaxw, min_le_right _ _⟩
  intro kv hkv
  rw [allocNormal] at hkv
  exact step_minCash_bounds _ _ hminc _
    (step_capInvestable_bounds _ _ hinv _ hclamp) kv hkv

/-- The minimum-cash step guarantees `min_cash_weight ≤ 1 - sum(weights)` for
the normal-path weights, given `min_cash_weight ≤ 1`. -/
theorem allocNormal_cash (picked : List AllocationInput) (scores : List ℚ) (ssum : ℚ)
    (constraints : AllocationConstraints) (h4 : constraints.min_cash_weight ≤ 1) :
    constraints.min_cash_weight ≤ 1 - dsum (allocNormal picked scores ssum constraints) := by
  rw [allocNormal]
  exact step_minCash_cash _ h4 _

/-- C1: for every sequence of allocation candidates and every constraints
record with `0 ≤ max_weight_per_stock ≤ 1`, `0 ≤ min_cash_weight ≤ 1` and
`max_positions ≥ 0`, the result of `allocate_weights` satisfies
`sum(weights) + cash_weight == 1` within 1e-6 tolerance, on every branch
(top_n ≤ 0, no positive candidates, zero score sum, and the normal path). -/
theorem allocation_budget_conservation (candidates : List AllocationInput) (top_n : ℤ)
    (constraints : AllocationConstraints)
    (h1 : 0 ≤ constraints.max_weight_per_stock) (h2 : constraints.max_weight_per_stock ≤ 1)
    (h3 : 0 ≤ constraints.min_cash_weight) (h4 : constraints.min_cash_weight ≤ 1)
    (h5 : 0 ≤ constraints.max_positions) :
    |dsum (allocate_weights candidates top_n constraints).weights +
        (allocate_weights candidates top_n constraints).cash_weight - 1| ≤ 1 / 1000000 := by
  rw [allocate_weights_cash_eq]
  have h : dsum (allocate_weights candidates top_n constraints).weights +
      (1 - dsum (allocate_weights candidates top_n constraints).weights) - 1 = 0 := by ring
  rw [h]
  norm_num

/-- Witness for C1 at a concrete input. -/
theorem allocation_budget_conservation_witness :
    |dsum (allocate_weights [⟨"A", 1/10, 1/10⟩] 3 ⟨1/4, 15/100, 8⟩).weights +
        (allocate_weights [⟨"A", 1/10, 1/10⟩] 3 ⟨1/4, 15/100, 8⟩).cash_weight - 1| ≤
      1 / 1000000 :=
  allocation_budget_conservation [⟨"A", 1/10, 1/10⟩] 3 ⟨1/4, 15/100, 8⟩
    (by norm_num) (by norm_num) (by norm_num) (by norm_num) (by norm_num)

/-- C2: every weight returned by `allocate_weights` is at most
`max_weight_per_stock + 1e-9` (the rescaling steps after the clamp only ever
shrink weights), for `0 ≤ max_weight_per_stock ≤ 1` and
`0 ≤ min_cash_weight ≤ 1`. -/
theorem allocation_max_weight_cap (candidates : List AllocationInput) (top_n : ℤ)
    (constraints : AllocationConstraints)
    (h1 : 0 ≤ constraints.max_weight_per_stock) (h2 : constraints.max_weight_per_stock ≤ 1)
    (h3 : 0 ≤ constraints.min_cash_weight) (h4 : constraints.min_cash_weight ≤ 1) :
    ∀ kv ∈ (allocate_weights candidates top_n constraints).weights,
      kv.2 ≤ constraints.max_weight_per_stock + 1 / 10 ^ 9 := by
  intro kv hkv
  have hpos : (0 : ℚ) < 1 / 10 ^ 9 := by norm_num
  simp only [allocate_weights] at hkv
  split_ifs at hkv with ht hp hs
  · simp at hkv
  · simp at hkv
  · simp at hkv
  · dsimp only at hkv
    have hb := (allocNormal_bounds _ _ _ constraints (lt_of_not_le hs)
      (by
        intro s hsm
        rcases List.mem_map.mp hsm with ⟨c, hc, rfl⟩
        exact le_max_right _ _)
      h1 h4 kv hkv).2
    linarith

/-- Witness for C2 at a concrete input: the single candidate gets exactly the
clamp value 1/4 ≤ 1/4 + 1e-9. -/
theorem allocation_max_weight_cap_witness :
    ("A", (1 : ℚ)/4) ∈ (allocate_weights [⟨"A", 1/10, 1/10⟩] 3 ⟨1/4, 15/100, 8⟩).weights ∧
      ((("A", (1 : ℚ)/4)).2 ≤ (⟨1/4, 15/100, 8⟩ : AllocationConstraints).max_weight_per_stock
        + 1 / 10 ^ 9) := by
  have hmem : ("A", (1 : ℚ)/4) ∈
      (allocate_weights [⟨"A", 1/10, 1/10⟩] 3 ⟨1/4, 15/100, 8⟩).weights := by
    norm_num +decide [allocate_weights, allocNormal, scoreOf, pyTake, dictOf, dinsert, dsum,
      mapValues, step_clamp, step_capInvestable, step_minCash, List.insertionSort,
      List.orderedInsert, Int.toNat, List.take, min_def, max_def]
  exact ⟨hmem, allocation_max_weight_cap [⟨"A", 1/10, 1/10⟩] 3 ⟨1/4, 15/100, 8⟩
    (by norm_num) (by norm_num) (by norm_num) (by norm_num) _ hmem⟩

/-- C8: whenever at least one candidate exists and
`0 ≤ min_cash_weight ≤ 1`, `0 ≤ max_weight_per_stock ≤ 1`, the returned
`cash_weight` is at least `min_cash_weight - 1e-9` (in the exact-rational
model it is at least `min_cash_weight`). -/
theorem allocation_min_cash_floor (candidates : List AllocationInput) (top_n : ℤ)
    (constraints : AllocationConstraints) (hne : candidates ≠ [])
    (h1 : 0 ≤ constraints.max_weight_per_stock) (h2 : constraints.max_weight_per_stock ≤ 1)
    (h3 : 0 ≤ constraints.min_cash_weight) (h4 : constraints.min_cash_weight ≤ 1) :
    constraints.min_cash_weight - 1 / 10 ^ 9 ≤
      (allocate_weights candidates top_n constraints).cash_weight := by
  have hpos : (0 : ℚ) < 1 / 10 ^ 9 := by norm_num
  simp only [allocate_weights]
  split_ifs with ht hp hs
  · dsimp only
    linarith
  · dsimp only
    linarith
  · dsimp only
    linarith
  · dsimp only
    have key : ∀ (picked : List AllocationInput) (scores : List ℚ) (ssum : ℚ),
        constraints.min_cash_weight - 1 / 10 ^ 9 ≤
          1 - dsum (allocNormal picked scores ssum constraints) := by
      intro p s ss
      have := allocNormal_cash p s ss constraints h4
      linarith
    exact key _ _ _

/-- Witness for C8 at a concrete input. -/
theorem allocation_min_cash_floor_witness :
    ((⟨1/4, 15/100, 8⟩ : AllocationConstraints).min_cash_weight - 1 / 10 ^ 9 ≤
      (allocate_weights [⟨"A", 1/10, 1/10⟩] 3 ⟨1/4, 15/100, 8⟩).cash_weight) :=
  allocation_min_cash_floor [⟨"A", 1/10, 1/10⟩] 3 ⟨1/4, 15/100, 8⟩
    (by simp) (by norm_num) (by norm_num) (by norm_num) (by norm_num)

/-- C9: when `top_n ≤ 0`, `allocate_weights` returns an empty weights map,
cash weight exactly 1 and the diagnostic string, for every candidate list
(the result is a constant independent of the candidates). -/
theorem allocation_topn_nonpos (candidates : List AllocationInput) (top_n : ℤ)
    (constraints : AllocationConstraints) (h : top_n ≤ 0) :
    allocate_weights candidates top_n constraints =
      { weights := [], cash_weight := 1, diagnostics := ["top_n<=0 -> 100% cash"] } := by
  rw [allocate_weights, if_pos h]

/-- Witness for C9 at a concrete input. -/
theorem allocation_topn_nonpos_witness :
    allocate_weights [⟨"A", 1/10, 1/10⟩] 0 ⟨1/4, 15/100, 8⟩ =
      { weights := [], cash_weight := 1, diagnostics := ["top_n<=0 -> 100% cash"] } :=
  allocation_topn_nonpos [⟨"A", 1/10, 1/10⟩] 0 ⟨1/4, 15/100, 8⟩ (by norm_num)

/-! ## src/rulebase/gating.py -/

/-- GatingConfig (gating.py) with its default thresholds. -/
structure GatingConfig where
  min_avg_volume_20d : ℚ := 50000
  min_model_quality : ℚ := 65/100
  min_signal_to_noise : ℚ := 15/100
deriving DecidableEq, Repr

/-- Candidate (gating.py). -/
structure Candidate where
  symbol : String
  expected_return : ℚ
  risk : ℚ
  liquidity : ℚ
  model_quality : ℚ
  reasons : List String
deriving DecidableEq, Repr

/-- GatedResult (gating.py). -/
structure GatedResult where
  kept : List Candidate
  removed : List Candidate
deriving DecidableEq, Repr

/-- The reason strings appended by the gate for one candidate, in the order
the checks run (numeric formatting inside the strings elided). -/
def gateReasons (cfg : GatingConfig) (c : Candidate) : List String :=
  (if c.liquidity < cfg.min_avg_volume_20d then ["Filtered: low liquidity"] else []) ++
  (if c.model_quality < cfg.min_model_quality then ["Filtered: low model_quality"] else []) ++
  (if c.risk ≤ 0 then ["Filtered: non-positive risk proxy"]
   else if |c.expected_return| / c.risk < cfg.min_signal_to_noise then
     ["Filtered: low signal_to_noise"] else [])

/-- The gate's `ok` flag: set to False by any failing check (gating.py,
lines 49-63). -/
def gatePass (cfg : GatingConfig) (c : Candidate) : Bool :=
  !(decide (c.liquidity < cfg.min_avg_volume_20d)) &&
  !(decide (c.model_quality < cfg.min_model_quality)) &&
  (if c.risk ≤ 0 then false
   else !(decide (|c.expected_return| / c.risk < cfg.min_signal_to_noise)))

/-- The fresh candidate copy `cc` with the gate's reasons appended. -/
def gateRebuild (cfg : GatingConfig) (c : Candidate) : Candidate :=
  { c with reasons := c.reasons ++ gateReasons cfg c }

/-- Sharpe-like sort key `x.expected_return / max(x.risk, 1e-12)` for the
kept list. -/
def gateKey (c : Candidate) : ℚ := c.expected_return / max c.risk (1 / 10 ^ 12)

/-- `gate_candidates` (gating.py, lines 39-76): partition into kept/removed
with appended reasons, kept sorted descending by the Sharpe-like key. -/
def gate_candidates (cs : List Candidate) (cfg : GatingConfig) : GatedResult :=
  let kept := (cs.filter fun c => gatePass cfg c).map fun c => gateRebuild cfg c
  let removed := (cs.filter fun c => !(gatePass cfg c)).map fun c => gateRebuild cfg c
  { kept := List.insertionSort (fun x y => gateKey y ≤ gateKey x) kept, removed := removed }

/-- The gate's `ok` flag spelled out as the conjunction of the four checks. -/
theorem gatePass_iff (cfg : GatingConfig) (c : Candidate) :
    gatePass cfg c = true ↔
      cfg.min_avg_volume_20d ≤ c.liquidity ∧ cfg.min_model_quality ≤ c.model_quality ∧
      0 < c.risk ∧ cfg.min_signal_to_noise ≤ |c.expected_return| / c.risk := by
  rw [gatePass]
  split_ifs with hr
  · constructor
    · intro h; simp at h
    · rintro ⟨-, -, hrisk, -⟩; exact absurd hrisk (not_lt.mpr hr)
  · have hrisk : 0 < c.risk := lt_of_not_le hr
    simp [not_lt, hrisk, and_assoc]

/-- Raising any single threshold only shrinks the set of passing candidates. -/
def RaisesOneThreshold (cfg1 cfg2 : GatingConfig) : Prop :=
  (cfg1.min_avg_volume_20d ≤ cfg2.min_avg_volume_20d ∧
    cfg1.min_model_quality = cfg2.min_model_quality ∧
    cfg1.min_signal_to_noise = cfg2.min_signal_to_noise) ∨
  (cfg1.min_avg_volume_20d = cfg2.min_avg_volume_20d ∧
    cfg1.min_model_quality ≤ cfg2.min_model_quality ∧
    cfg1.min_signal_to_noise = cfg2.min_signal_to_noise) ∨
  (cfg1.min_avg_volume_20d = cfg2.min_avg_volume_20d ∧
    cfg1.min_model_quality = cfg2.min_model_quality ∧
    cfg1.min_signal_to_noise ≤ cfg2.min_signal_to_noise)

/-- A candidate passing the gate under the raised configuration also passes
under the lower one. -/
theorem gatePass_antitone (cfg1 cfg2 : GatingConfig) (h : RaisesOneThreshold cfg1 cfg2)
    (c : Candidate) (hp : gatePass cfg2 c = true) : gatePass cfg1 c = true := by
  rw [gatePass_iff] at hp ⊢
  obtain ⟨h1, h2, h3, h4⟩ := hp
  rcases h with ⟨ha, hb, hc⟩ | ⟨ha, hb, hc⟩ | ⟨ha, hb, hc⟩
  · exact ⟨le_trans ha h1, le_trans (le_of_eq hb) h2, h3, le_trans (le_of_eq hc) h4⟩
  · exact ⟨le_trans (le_of_eq ha) h1, le_trans hb h2, h3, le_trans (le_of_eq hc) h4⟩
  · exact ⟨le_trans (le_of_eq ha) h1, le_trans (le_of_eq hb) h2, h3, le_trans hc h4⟩

/-- A passing candidate gets no reasons appended. -/
theorem gateReasons_pass (cfg : GatingConfig) (c : Candidate)
    (h : gatePass cfg c = true) : gateReasons cfg c = [] := by
  rw [gatePass_iff] at h
  obtain ⟨h1, h2, h3, h4⟩ := h
  rw [gateReasons, if_neg (not_lt.mpr h1), if_neg (not_lt.mpr h2),
    if_neg (not_le.mpr h3), if_neg (not_lt.mpr h4)]
  simp

/-- A passing candidate's rebuilt copy equals the candidate itself. -/
theorem gateRebuild_pass (cfg : GatingConfig) (c : Candidate)
    (h : gatePass cfg c = true) : gateRebuild cfg c = c := by
  rw [gateRebuild, gateReasons_pass cfg c h]
  simp

/-- C4: gate monotonicity.  For every candidate list and every pair of
configurations differing only by raising one threshold, every candidate kept
under the raised configuration is also kept under the lower one. -/
theorem gate_monotonicity (cs : List Candidate) (cfg1 cfg2 : GatingConfig)
    (h : RaisesOneThreshold cfg1 cfg2) :
    ∀ c ∈ (gate_candidates cs cfg2).kept, c ∈ (gate_candidates cs cfg1).kept := by
  intro c hc
  simp only [gate_candidates] at hc ⊢
  rw [(List.perm_insertionSort _ _).mem_iff] at hc ⊢
  rcases List.mem_map.mp hc with ⟨c0, hc0, rfl⟩
  have hmem : c0 ∈ cs := (List.mem_filter.mp hc0).1
  have hpass2 : gatePass cfg2 c0 = true := (List.mem_filter.mp hc0).2
  have hpass1 : gatePass cfg1 c0 = true := gatePass_antitone cfg1 cfg2 h c0 hpass2
  refine List.mem_map.mpr ⟨c0, List.mem_filter.mpr ⟨hmem, hpass1⟩, ?_⟩
  rw [gateRebuild_pass cfg2 c0 hpass2, gateRebuild_pass cfg1 c0 hpass1]

/-- A concrete candidate used for the gate-monotonicity witness. -/
def cGate : Candidate := ⟨"AAA", 1/10, 1/10, 200000, 7/10, []⟩

/-- Witness for C4 at a concrete input: raising the liquidity threshold from
50000 to 100000 keeps `cGate` in both kept lists. -/
theorem gate_monotonicity_witness :
    RaisesOneThreshold ⟨50000, 65/100, 15/100⟩ ⟨100000, 65/100, 15/100⟩ ∧
      cGate ∈ (gate_candidates [cGate] ⟨50000, 65/100, 15/100⟩).kept := by
  have hr : RaisesOneThreshold ⟨50000, 65/100, 15/100⟩ ⟨100000, 65/100, 15/100⟩ := by
    left
    refine ⟨by norm_num, rfl, rfl⟩
  have hmem : cGate ∈ (gate_candidates [cGate] ⟨100000, 65/100, 15/100⟩).kept := by
    norm_num [gate_candidates, gatePass, gateRebuild, gateReasons, gateKey, cGate,
      List.insertionSort, List.orderedInsert, abs]
  exact ⟨hr, gate_monotonicity [cGate] _ _ hr cGate hmem⟩

/-! ## src/data_access/fundamental_features.py -/

/-- FundamentalsSnapshot (fundamental_features.py); `metrics` is the Python
dict as an association list. -/
structure FundamentalsSnapshot where
  symbol : String
  year : ℤ
  quarter : ℤ
  metrics : List (String × ℚ)
deriving DecidableEq, Repr

/-- `fundamentals_boost` (fundamental_features.py, lines 79-113).
`m.get(key, 0.0) or 0.0` returns 0.0 for a missing metric, and that default
still enters the roe/roa terms of the score. -/
def fundamentals_boost (snapshot : Option FundamentalsSnapshot) : ℚ :=
  match snapshot with
  | none => 0
  | some s =>
    let m := s.metrics
    let roe := (List.lookup "roe" m).getD 0
    let roa := (List.lookup "roa" m).getD 0
    let pe := (List.lookup "p_e" m).getD 0
    let pb := (List.lookup "p_b" m).getD 0
    let score := (roe - 15/100) / (10/100) + (roa - 2/100) / (1/100) +
      (if 0 < pe then (10 - pe) / 10 else 0) +
      (if 0 < pb then (15/10 - pb) / (15/10) else 0)
    let boost := 25/10000 * score
    if 1/100 < boost then 1/100
    else if boost < -(1/100) then -(1/100)
    else boost

/-- C7 (failing input): on a snapshot with no metrics at all the code
returns -0.00875 = -(7/800) rather than 0: the missing roe and roa default to
0.0 and contribute (0-0.15)/0.10 = -1.5 and (0-0.02)/0.01 = -2.0 to the
score, contradicting the function's own docstring ("Missing metrics
contribute 0") and the spec.  (A `None` snapshot does return 0.) -/
theorem fundamentals_boost_empty_metrics :
    fundamentals_boost (some ⟨"FPT", 2024, 1, []⟩) = -(7/800) ∧
      ((-(7/800) : ℚ) ≠ 0) ∧ fundamentals_boost none = 0 := by
  refine ⟨?_, by norm_num, rfl⟩
  norm_num [fundamentals_boost, List.lookup]

/-! ## src/data_access/features.py -/

/-- SymbolFeatures (features.py). -/
structure SymbolFeatures where
  symbol : String
  last_close : ℚ
  return_5d : ℚ
  realized_vol_20d : ℚ
  atr_14 : ℚ
  avg_volume_20d : ℚ
deriving DecidableEq, Repr

/-- `uncertainty_band_from_vol` (features.py, lines 100-115).  `sqrtHd`
stands for `math.sqrt(float(horizon_days))` (not evaluated in the collapse
branch).  Non-finite floats are outside the exact-rational model, so the
`isfinite` part of the guard has no rational counterpart. -/
def uncertainty_band_from_vol (expected_return realized_vol : ℚ) (horizon_days : ℤ)
    (sqrtHd : ℚ) : ℚ × ℚ × ℚ :=
  if realized_vol ≤ 0 ∨ horizon_days ≤ 0 then
    (expected_return, expected_return, expected_return)
  else
    let scale := realized_vol * sqrtHd
    (expected_return - 12816/10000 * scale, expected_return,
      expected_return + 12816/10000 * scale)

/-- A float value that may be `float('inf')`. -/
inductive PyFloat
  | fin (q : ℚ)
  | inf
deriving DecidableEq, Repr

/-- `x >= c` on a possibly-infinite float. -/
def pyGe (x : PyFloat) (c : ℚ) : Bool :=
  match x with
  | PyFloat.inf => true
  | PyFloat.fin q => decide (c ≤ q)

/-- `spread_proxy_from_liquidity_and_vol` (features.py, lines 118-130);
`sqrtLiq` stands for `math.sqrt(avg_volume_20d)`. -/
def spread_proxy_from_liquidity_and_vol (avg_volume_20d realized_vol_20d : ℚ)
    (sqrtLiq : ℚ) : PyFloat :=
  if avg_volume_20d ≤ 0 then PyFloat.inf
  else PyFloat.fin (realized_vol_20d / sqrtLiq)

/-! ## src/rulebase/execution_rules.py -/

/-- RiskProfile (execution_rules.py / mock_portfolio.py). -/
inductive RiskProfile
  | conservative
  | moderate
  | aggressive
deriving DecidableEq, Repr

/-- LadderStep (execution_rules.py). -/
structure LadderStep where
  step_pct : ℚ
  size_pct_of_symbol : ℚ
deriving DecidableEq, Repr

/-- OrderPlan (execution_rules.py); order_type/time_in_force are the string
literals used by the source. -/
structure OrderPlan where
  order_type : String
  entry_rule : String
  ladder : Option (List LadderStep)
  time_in_force : String
deriving DecidableEq, Repr

/-- RiskControls (execution_rules.py). -/
structure RiskControls where
  stop_loss_rule : String
  take_profit_rule : String
  max_loss_pct_portfolio : ℚ
deriving DecidableEq, Repr

/-- `_k_params` (execution_rules.py, lines 41-46): (k_sl, k_tp, max_loss). -/
def kParams : RiskProfile → ℚ × ℚ × ℚ
  | RiskProfile.conservative => (1, 3/2, 5/1000)
  | RiskProfile.aggressive => (3/2, 5/2, 15/1000)
  | RiskProfile.moderate => (12/10, 2, 1/100)

/-- `build_order_plan` (execution_rules.py, lines 49-89).  The entry-rule
strings keep their branch identity but elide the interpolated numbers. -/
def build_order_plan (symbol action : String) (last_close atr : ℚ)
    (spread_proxy : PyFloat) (profile : RiskProfile) (time_in_force : String) : OrderPlan :=
  if action = "hold" then
    { order_type := "limit", entry_rule := "HOLD: no new entry. Reference last_close.",
      ladder := none, time_in_force := time_in_force }
  else if pyGe spread_proxy (25/10000) then
    { order_type := "limit",
      entry_rule := "via LIMIT+LADDER: anchor at last_close. Place 3-step ladder below anchor.",
      ladder := some [⟨-(2/10), 4/10⟩, ⟨-(5/10), 35/100⟩, ⟨-1, 25/100⟩],
      time_in_force := time_in_force }
  else
    { order_type := "limit",
      entry_rule := "via LIMIT: place near last_close (consider slight improvement).",
      ladder := none, time_in_force := time_in_force }

/-- `build_risk_controls` (execution_rules.py, lines 92-131); the computed
stop/target prices occur only inside the strings and are elided. -/
def build_risk_controls (action : String) (entry_reference_price atr : ℚ)
    (profile : RiskProfile) : RiskControls :=
  let k := kParams profile
  if action = "hold" then
    { stop_loss_rule := "HOLD: keep existing risk controls; re-evaluate on break of key levels.",
      take_profit_rule := "HOLD: consider trimming into strength; re-evaluate on new data.",
      max_loss_pct_portfolio := k.2.2 }
  else if atr ≤ 0 then
    { stop_loss_rule := "ATR unavailable; use a fixed % stop.",
      take_profit_rule := "ATR unavailable; use a fixed % take-profit.",
      max_loss_pct_portfolio := k.2.2 }
  else if action = "buy" then
    { stop_loss_rule := "StopLoss: set at entry - k_sl*ATR14.",
      take_profit_rule := "TakeProfit: set at entry + k_tp*ATR14.",
      max_loss_pct_portfolio := k.2.2 }
  else
    { stop_loss_rule := "StopLoss: for SELL, set at entry + k_sl*ATR14.",
      take_profit_rule := "TakeProfit: for SELL, set at entry - k_tp*ATR14.",
      max_loss_pct_portfolio := k.2.2 }

/-! ## src/data_access/mock_portfolio.py and src/llm_orchestrator/schema.py -/

/-- Position (mock_portfolio.py). -/
structure Position where
  symbol : String
  qty : ℚ
  avg_cost : ℚ
deriving DecidableEq, Repr

/-- PortfolioConstraints (mock_portfolio.py). -/
structure PortfolioConstraints where
  max_weight_per_stock : ℚ
  min_cash_weight : ℚ
  max_positions : ℤ
deriving DecidableEq, Repr

/-- Portfolio (mock_portfolio.py). -/
structure Portfolio where
  cash : ℚ
  positions : List Position
  constraints : PortfolioConstraints
  risk_profile : RiskProfile
deriving DecidableEq, Repr

/-- UncertaintyBand (schema.py). -/
structure UncertaintyBand where
  p10 : ℚ
  p50 : ℚ
  p90 : ℚ
deriving DecidableEq, Repr

/-- RecommendedAction (schema.py); `action` is one of "buy"/"sell"/"hold". -/
structure RecommendedAction where
  symbol : String
  action : String
  target_weight : ℚ
  confidence : ℚ
  expected_return : ℚ
  uncertainty_band : UncertaintyBand
  order_plan : OrderPlan
  risk_controls : RiskControls
  evidence : List String
  invalidation : List String
deriving DecidableEq, Repr

/-- RecommendationOutput (schema.py). -/
structure RecommendationOutput where
  horizon_days : ℤ
  recommended_actions : List RecommendedAction
  cash_weight : ℚ
  notes : String
deriving DecidableEq, Repr

instance : Inhabited RecommendationOutput := ⟨⟨0, [], 0, ""⟩⟩

instance : Inhabited RecommendedAction :=
  ⟨⟨"", "", 0, 0, 0, ⟨0, 0, 0⟩, ⟨"", "", none, ""⟩, ⟨"", "", 0⟩, [], []⟩⟩

/-! ## src/llm_orchestrator/orchestrator.py -/

/-- `_sentiment_to_return_boost` (orchestrator.py, lines 47-55). -/
def sentiment_to_return_boost (avg_score : ℚ) : ℚ :=
  let s := max (-2) (min 2 avg_score)
  let norm := s / 2
  1/100 * norm

/-- `_confidence` (orchestrator.py, lines 58-65). -/
def confidenceOf (expected_return risk model_quality : ℚ) : ℚ :=
  if risk ≤ 0 then 1/10
  else
    let sn := |expected_return| / risk
    let base := max 0 (min 1 (1/2 * sn / (1/2)))
    let conf := 4/10 * model_quality + 6/10 * base
    max 0 (min 1 conf)

/-- Sentiment aggregate for one symbol (the part of
`aggregate_recent_sentiment`'s output that recommend reads). -/
structure SentimentAgg where
  avg_score : ℚ
  evidence : List String
deriving DecidableEq, Repr

/-- One forecast-bundle entry (tools.load_forecast_bundle): a dict read with
`.get`, so every field is optional. -/
structure ForecastEntry where
  expected_return : Option ℚ
  uncertainty_sigma : Option ℚ
  model_quality : Option ℚ
deriving DecidableEq, Repr

/-- MacroPoint (loaders.py; only the fields recommend reads). -/
structure MacroPoint where
  year : ℤ
  quarter : ℤ
  inf_pct : ℚ
  gdp_pct : ℚ
  dc_pct : ℚ
deriving DecidableEq, Repr

/-- The ambient pure functions recommend uses whose values the embedding
abstracts: `math.sqrt` (irrational-valued) and `deterministic_model_quality`
(tools.py lines 195-201, sha256-based).  Both are fixed deterministic
functions; theorems quantify over them, and concrete runs instantiate them
with their true values at the finitely many points used. -/
structure OrchestratorEnv where
  sqrtq : ℚ → ℚ
  model_quality : String → ℚ

/-- All data recommend has in hand once the tool-loading phase (lines
89-117 of orchestrator.py) is done: portfolio, per-symbol features, sentiment
and news aggregates, macro/fx series, fundamentals snapshots and the optional
forecast bundle.  Each is keyed by symbol where applicable. -/
structure RecommendData where
  portfolio : Portfolio
  feats : List (String × SymbolFeatures)
  sent_agg : List (String × SentimentAgg)
  news_ev : List (String × List String)
  macroSeries : List MacroPoint
  usdvnd : List (String × ℚ)
  fundamentals_snap : List (String × FundamentalsSnapshot)
  forecast_bundle : List (String × ForecastEntry)

/-- Per-symbol textual fields an enabled overlay may return. -/
structure PerSymbolText where
  entry_rule : Option String
  invalidation : Option (List String)

/-- The dict returned by `render_text_fields`. -/
structure RenderedText where
  notes : Option String
  per_symbol : List (String × PerSymbolText)

/-- The facts payload handed to the overlay (orchestrator.py lines 303-317),
carried structurally rather than as serialized dicts. -/
structure FactsPayload where
  gating_kept : List Candidate
  gating_removed : List Candidate
  alloc : AllocationResult
  recommended_actions : List RecommendedAction
  macro_tail : List MacroPoint
  usdvnd_tail : List (String × ℚ)

/-- The duck-typed LLM client (tools.py lines 169-171): `enabled()` plus
`render_text_fields`, which may raise — modelled as `Except ε`. -/
structure LLMClient (ε : Type) where
  enabled : Bool
  render_text_fields : FactsPayload → Except ε RenderedText

/-- Python `str.upper()` (ASCII-wise), used to key held positions. -/
def pyUpper (s : String) : String := ⟨s.data.map Char.toUpper⟩

/-- Candidate construction (orchestrator.py lines 119-149): one candidate per
feature entry; `env.sqrtq (max 1 horizon)` stands for
`math.sqrt(max(1.0, float(horizon_days)))`.  The reasons strings keep their
identity but elide interpolated numbers. -/
def buildCandidates (env : OrchestratorEnv) (data : RecommendData)
    (horizon_days : ℤ) : List Candidate :=
  data.feats.map fun sf =>
    let sym := sf.1
    let f := sf.2
    let sboost := match List.lookup sym data.sent_agg with
      | some sa => sentiment_to_return_boost sa.avg_score
      | none => 0
    let fboost := fundamentals_boost (List.lookup sym data.fundamentals_snap)
    let ermq :=
      match (if data.forecast_bundle.isEmpty then none
             else List.lookup sym data.forecast_bundle) with
      | some fe =>
        (85/100 * fe.expected_return.getD 0 + 10/100 * sboost + 5/100 * fboost,
          fe.model_quality.getD (env.model_quality sym))
      | none =>
        (75/100 * f.return_5d + 20/100 * sboost + 5/100 * fboost, env.model_quality sym)
    let risk := f.realized_vol_20d * env.sqrtq (max 1 (horizon_days : ℚ))
    { symbol := sym, expected_return := ermq.1, risk := risk,
      liquidity := f.avg_volume_20d, model_quality := ermq.2,
      reasons := ["features: return_5d, vol20d, atr14, avg_vol20d",
        "sentiment_boost", "fundamentals_boost", "forecast_source"] }

/-- Uncertainty-band selection for a buy action (orchestrator.py lines
174-184): the model's `uncertainty_sigma` is preferred when the bundle
provides it, scaled by `sqrt(max(1, horizon_days))` with NO guard on sigma or
horizon; otherwise `uncertainty_band_from_vol` is used. -/
def buyUncertaintyBand (bundleEntry : Option ForecastEntry)
    (expected_return realized_vol : ℚ) (horizon_days : ℤ)
    (sqrtMaxH sqrtHd : ℚ) : ℚ × ℚ × ℚ :=
  match bundleEntry with
  | some fe =>
    match fe.uncertainty_sigma with
    | some sigma =>
      let scale := sigma * sqrtMaxH
      (expected_return - 12816/10000 * scale, expected_return,
        expected_return + 12816/10000 * scale)
    | none => uncertainty_band_from_vol expected_return realized_vol horizon_days sqrtHd
  | none => uncertainty_band_from_vol expected_return realized_vol horizon_days sqrtHd

/-- Deterministic evidence strings of a buy action (orchestrator.py lines
186-198): price and momentum lines, a fundamentals line when the snapshot is
present with nonempty metrics, then sentiment evidence and news evidence.
Interpolated numbers elided. -/
def buyEvidence (sym : String) (data : RecommendData) : List String :=
  ["Price asof close", "Momentum 5d; vol20d; ATR14"] ++
  (match List.lookup sym data.fundamentals_snap with
   | some snap => if snap.metrics.isEmpty then [] else ["Fundamentals (YQ): metrics"]
   | none => []) ++
  (match List.lookup sym data.sent_agg with
   | some sa => sa.evidence
   | none => []) ++
  (List.lookup sym data.news_ev).getD []

/-- The body of the BUY loop for one `(sym, w)` pair of the weight dict
(orchestrator.py lines 166-243); `none` models `continue`. -/
def buyActionFor (env : OrchestratorEnv) (data : RecommendData)
    (gatedKept : List Candidate) (horizon_days : ℤ) (sw : String × ℚ) :
    Option RecommendedAction :=
  match List.lookup sw.1 data.feats with
  | none => none
  | some f =>
    match gatedKept.find? (fun x => x.symbol == sw.1) with
    | none => none
    | some c =>
      let spread := spread_proxy_from_liquidity_and_vol f.avg_volume_20d f.realized_vol_20d
        (env.sqrtq f.avg_volume_20d)
      let band := buyUncertaintyBand
        (if data.forecast_bundle.isEmpty then none
         else List.lookup sw.1 data.forecast_bundle)
        c.expected_return f.realized_vol_20d horizon_days
        (env.sqrtq (max 1 (horizon_days : ℚ))) (env.sqrtq (horizon_days : ℚ))
      some
        { symbol := sw.1, action := "buy", target_weight := sw.2,
          confidence := confidenceOf c.expected_return (max c.risk (1/10^8)) c.model_quality,
          expected_return := c.expected_return,
          uncertainty_band := ⟨band.1, band.2.1, band.2.2⟩,
          order_plan := build_order_plan sw.1 "buy" f.last_close f.atr_14 spread
            data.portfolio.risk_profile "day",
          risk_controls := build_risk_controls "buy" f.last_close f.atr_14
            data.portfolio.risk_profile,
          evidence := buyEvidence sw.1 data,
          invalidation := ["Nếu đóng cửa < (entry - k*ATR) theo rule stop-loss.",
            "Nếu vol regime tăng mạnh (vol20d spike) làm giảm xác suất thesis."] }

/-- The BUY actions: one pass over the allocation weights sorted descending
by weight (orchestrator.py line 166). -/
def buildBuyActions (env : OrchestratorEnv) (data : RecommendData)
    (gatedKept : List Candidate) (alloc : AllocationResult) (horizon_days : ℤ) :
    List RecommendedAction :=
  (List.insertionSort (fun a b => b.2 ≤ a.2) alloc.weights).filterMap
    (buyActionFor env data gatedKept horizon_days)

/-- The body of the SELL loop for one `(sym, pos)` pair of the held dict
(orchestrator.py lines 247-300); sell threshold -1%. -/
def sellActionFor (env : OrchestratorEnv) (data : RecommendData)
    (candidates : List Candidate) (alloc : AllocationResult) (horizon_days : ℤ)
    (sp : String × Position) : Option RecommendedAction :=
  match List.lookup sp.1 data.feats with
  | none => none
  | some f =>
    match candidates.find? (fun x => x.symbol == sp.1) with
    | none => none
    | some c =>
      if (List.lookup sp.1 alloc.weights).isSome then none
      else if c.expected_return ≤ -(1/100) then
        let spread := spread_proxy_from_liquidity_and_vol f.avg_volume_20d f.realized_vol_20d
          (env.sqrtq f.avg_volume_20d)
        let band := uncertainty_band_from_vol c.expected_return f.realized_vol_20d
          horizon_days (env.sqrtq (horizon_days : ℚ))
        some
          { symbol := sp.1, action := "sell", target_weight := 0,
            confidence := confidenceOf c.expected_return (max c.risk (1/10^8)) c.model_quality,
            expected_return := c.expected_return,
            uncertainty_band := ⟨band.1, band.2.1, band.2.2⟩,
            order_plan := build_order_plan sp.1 "sell" f.last_close f.atr_14 spread
              data.portfolio.risk_profile "day",
            risk_controls := build_risk_controls "sell" f.last_close f.atr_14
              data.portfolio.risk_profile,
            evidence := ["Held position qty avg_cost",
              "Weak signal expected_return (mom+sentiment stub)."],
            invalidation := ["Nếu tín hiệu đảo chiều tích cực (momentum + sentiment) trong 3-5 phiên."] }
      else none

/-- The SELL suggestions: one pass over the held dict
`{p.symbol.upper(): p for p in portfolio.positions}` (lines 162, 245-300). -/
def buildSellActions (env : OrchestratorEnv) (data : RecommendData)
    (candidates : List Candidate) (alloc : AllocationResult) (horizon_days : ℤ) :
    List RecommendedAction :=
  (dictOf (data.portfolio.positions.map fun p => (pyUpper p.symbol, p))).filterMap
    (sellActionFor env data candidates alloc horizon_days)

/-- The per-action textual overwrite of the enabled-overlay branch
(orchestrator.py lines 321-324): only `entry_rule` and `invalidation` may
change. -/
def applyOverlay (per_symbol : List (String × PerSymbolText))
    (a : RecommendedAction) : RecommendedAction :=
  match List.lookup a.symbol per_symbol with
  | none => a
  | some t =>
    { a with
      order_plan := { a.order_plan with entry_rule := t.entry_rule.getD a.order_plan.entry_rule },
      invalidation := t.invalidation.getD a.invalidation }

/-- The portfolio-level notes suffixes (orchestrator.py lines 332-338),
appended when macro / usdvnd data is nonempty (numbers elided). -/
def notesSuffix (macroSeries : List MacroPoint) (usdvnd : List (String × ℚ)) : String :=
  (if macroSeries.isEmpty then "" else " | Macro: YQ INF GDP DC") ++
  (if usdvnd.isEmpty then "" else " | USDVND last value")

/-- The gating + allocation stage of recommend (orchestrator.py lines
151-159): gate the built candidates, then allocate over the kept ones with
risk floored at 1e-8 and the portfolio's constraints. -/
def recommendAlloc (env : OrchestratorEnv) (data : RecommendData)
    (cfg : GatingConfig) (horizon_days top_n : ℤ) : AllocationResult :=
  let gated := gate_candidates (buildCandidates env data horizon_days) cfg
  allocate_weights
    (gated.kept.map fun c =>
      { symbol := c.symbol, expected_return := c.expected_return,
        risk := max c.risk (1/10^8) })
    top_n
    { max_weight_per_stock := data.portfolio.constraints.max_weight_per_stock,
      min_cash_weight := data.portfolio.constraints.min_cash_weight,
      max_positions := data.portfolio.constraints.max_positions }

/-- The facts payload recommend assembles for the overlay (orchestrator.py
lines 303-317): gating partition, allocation, the actions built so far and
the macro / usd-vnd tails (last two entries). -/
def recommendPayload (env : OrchestratorEnv) (data : RecommendData)
    (cfg : GatingConfig) (horizon_days top_n : ℤ) : FactsPayload :=
  let candidates := buildCandidates env data horizon_days
  let gated := gate_candidates candidates cfg
  let alloc := recommendAlloc env data cfg horizon_days top_n
  let actions := buildBuyActions env data gated.kept alloc horizon_days ++
    buildSellActions env data candidates alloc horizon_days
  { gating_kept := gated.kept, gating_removed := gated.removed, alloc := alloc,
    recommended_actions := actions,
    macro_tail := data.macroSeries.drop (data.macroSeries.length - 2),
    usdvnd_tail := data.usdvnd.drop (data.usdvnd.length - 2) }

/-- `Orchestrator.recommend` from the point where all tool data is loaded
(orchestrator.py lines 119-346); the as-of date, history check and file
loading are upstream of `RecommendData`.  There is no try/except around the
enabled overlay's `render_text_fields` call (lines 318-325), so an error it
raises propagates out of recommend — modelled by the `Except ε` result. -/
def recommend (ε : Type) (env : OrchestratorEnv) (data : RecommendData)
    (llm : LLMClient ε) (cfg : GatingConfig) (horizon_days top_n : ℤ) :
    Except ε RecommendationOutput :=
  let candidates := buildCandidates env data horizon_days
  let gated := gate_candidates candidates cfg
  let alloc := recommendAlloc env data cfg horizon_days top_n
  let actions := buildBuyActions env data gated.kept alloc horizon_days ++
    buildSellActions env data candidates alloc horizon_days
  let payload := recommendPayload env data cfg horizon_days top_n
  if llm.enabled then
    match llm.render_text_fields payload with
    | Except.error e => Except.error e
    | Except.ok rendered =>
      let actions2 := actions.map (applyOverlay rendered.per_symbol)
      let notes := rendered.notes.getD "" ++ notesSuffix data.macroSeries data.usdvnd
      Except.ok { horizon_days := horizon_days, recommended_actions := actions2,
                  cash_weight := alloc.cash_weight, notes := notes }
  else
    let notes := "LLM disabled: plan được tạo bằng rulebase + optimizer deterministic. " ++
      "Hãy kiểm tra lại mức rủi ro/khả năng khớp lệnh trước khi đặt lệnh." ++
      notesSuffix data.macroSeries data.usdvnd
    Except.ok { horizon_days := horizon_days, recommended_actions := actions,
                cash_weight := alloc.cash_weight, notes := notes }

/-! ### Key-uniqueness of the weight dict and lookup lemmas -/

/-- The keys of a dict. -/
def dkeys {β : Type} (d : List (String × β)) : List String := d.map Prod.fst

/-- Keys after a `dinsert` come from the dict or are the inserted key. -/
theorem dinsert_dkeys_sub {β : Type} (k : String) (v : β) (d : List (String × β)) :
    ∀ x ∈ dkeys (dinsert k v d), x ∈ dkeys d ∨ x = k := by
  induction d with
  | nil => simp [dinsert, dkeys]
  | cons p tl ih =>
    obtain ⟨k', v'⟩ := p
    intro x hx
    rw [dinsert] at hx
    split_ifs at hx with hk
    · rcases List.mem_cons.mp hx with h | h
      · exact Or.inr h
      · exact Or.inl (List.mem_cons_of_mem _ h)
    · rcases List.mem_cons.mp hx with h | h
      · exact Or.inl (h ▸ List.mem_cons_self _ _)
      · rcases ih x h with h' | h'
        · exact Or.inl (List.mem_cons_of_mem _ h')
        · exact Or.inr h'

/-- `dinsert` preserves key-uniqueness. -/
theorem dinsert_dkeys_nodup {β : Type} (k : String) (v : β) (d : List (String × β))
    (h : (dkeys d).Nodup) : (dkeys (dinsert k v d)).Nodup := by
  induction d with
  | nil => simp [dinsert, dkeys]
  | cons p tl ih =>
    obtain ⟨k', v'⟩ := p
    rw [dkeys, List.map_cons, List.nodup_cons] at h
    rw [dinsert]
    split_ifs with hk
    · subst hk
      rw [dkeys, List.map_cons, List.nodup_cons]
      exact ⟨h.1, h.2⟩
    · rw [dkeys, List.map_cons, List.nodup_cons]
      refine ⟨?_, ih h.2⟩
      intro hmem
      rcases dinsert_dkeys_sub k v tl k' hmem with h' | h'
      · exact h.1 h'
      · exact hk h'

/-- A fold of `dinsert`s preserves key-uniqueness. -/
theorem foldl_dinsert_dkeys_nodup {β : Type} (l acc : List (String × β))
    (h : (dkeys acc).Nodup) :
    (dkeys (l.foldl (fun d kv => dinsert kv.1 kv.2 d) acc)).Nodup := by
  induction l generalizing acc with
  | nil => simpa using h
  | cons hd tl ih =>
    simp only [List.foldl_cons]
    exact ih _ (dinsert_dkeys_nodup hd.1 hd.2 acc h)

/-- A Python dict has pairwise distinct keys. -/
theorem dictOf_dkeys_nodup {β : Type} (l : List (String × β)) :
    (dkeys (dictOf l)).Nodup :=
  foldl_dinsert_dkeys_nodup l [] (by simp [dkeys])

/-- `mapValues` keeps the keys. -/
theorem mapValues_dkeys (f : ℚ → ℚ) (d : List (String × ℚ)) :
    dkeys (mapValues f d) = dkeys d := by
  simp [dkeys, mapValues, List.map_map, Function.comp]

theorem step_clamp_dkeys (maxw : ℚ) (d : List (String × ℚ)) :
    dkeys (step_clamp maxw d) = dkeys d := mapValues_dkeys _ _

theorem step_capInvestable_dkeys (investable : ℚ) (d : List (String × ℚ)) :
    dkeys (step_capInvestable investable d) = dkeys d := by
  rw [step_capInvestable]
  split_ifs <;> simp [mapValues_dkeys]

theorem step_minCash_dkeys (minCash : ℚ) (d : List (String × ℚ)) :
    dkeys (step_minCash minCash d) = dkeys d := by
  rw [step_minCash]
  split_ifs <;> simp [mapValues_dkeys]

/-- The normal-path weights have pairwise distinct keys. -/
theorem allocNormal_dkeys_nodup (picked : List AllocationInput) (scores : List ℚ)
    (ssum : ℚ) (constraints : AllocationConstraints) :
    (dkeys (allocNormal picked scores ssum constraints)).Nodup := by
  simp only [allocNormal]
  rw [step_minCash_dkeys, step_capInvestable_dkeys, step_clamp_dkeys]
  exact dictOf_dkeys_nodup _

/-- The weight dict returned by `allocate_weights` has pairwise distinct
keys. -/
theorem allocate_weights_dkeys_nodup (candidates : List AllocationInput) (top_n : ℤ)
    (constraints : AllocationConstraints) :
    (dkeys (allocate_weights candidates top_n constraints).weights).Nodup := by
  simp only [allocate_weights]
  split_ifs
  · simp [dkeys]
  · simp [dkeys]
  · simp [dkeys]
  · exact allocNormal_dkeys_nodup _ _ _ _

/-- Lookup of a member pair in a list with distinct keys. -/
theorem lookup_eq_some_of_mem {β : Type} (l : List (String × β)) (k : String) (v : β)
    (hnd : (dkeys l).Nodup) (hmem : (k, v) ∈ l) : List.lookup k l = some v := by
  induction l with
  | nil => simp at hmem
  | cons p tl ih =>
    obtain ⟨k', v'⟩ := p
    rw [dkeys, List.map_cons, List.nodup_cons] at hnd
    rcases List.mem_cons.mp hmem with h | h
    · obtain ⟨rfl, rfl⟩ := Prod.mk.injEq .. ▸ h
      simp [List.lookup]
    · have hk : ¬(k = k') := by
        rintro rfl
        exact hnd.1 (List.mem_map.mpr ⟨(k, v), h, rfl⟩)
      have hbeq : (k == k') = false := beq_eq_false_iff_ne.mpr hk
      rw [List.lookup, hbeq]
      exact ih hnd.2 h

/-- Lookup succeeds for any member pair's key. -/
theorem lookup_isSome_of_mem {β : Type} (l : List (String × β)) (k : String) (v : β)
    (hmem : (k, v) ∈ l) : (List.lookup k l).isSome = true := by
  induction l with
  | nil => simp at hmem
  | cons p tl ih =>
    obtain ⟨k', v'⟩ := p
    rw [List.lookup]
    cases hk : k == k' with
    | true => rfl
    | false =>
      rcases List.mem_cons.mp hmem with h | h
      · obtain ⟨rfl, rfl⟩ := Prod.mk.injEq .. ▸ h
        simp at hk
      · exact ih h

/-! ### Structure of the recommended actions -/

/-- A produced buy action has action "buy", the pair's symbol and the pair's
weight as target weight. -/
theorem buyActionFor_some (env : OrchestratorEnv) (data : RecommendData)
    (gatedKept : List Candidate) (horizon_days : ℤ) (sw : String × ℚ)
    (a : RecommendedAction)
    (hf : buyActionFor env data gatedKept horizon_days sw = some a) :
    a.action = "buy" ∧ a.symbol = sw.1 ∧ a.target_weight = sw.2 := by
  rw [buyActionFor] at hf
  split at hf
  · exact absurd hf (by simp)
  · split at hf
    · exact absurd hf (by simp)
    · cases hf
      exact ⟨rfl, rfl, rfl⟩

/-- A produced sell action has action "sell", target weight 0, and its symbol
is not a key of the allocation weights. -/
theorem sellActionFor_some (env : OrchestratorEnv) (data : RecommendData)
    (candidates : List Candidate) (alloc : AllocationResult) (horizon_days : ℤ)
    (sp : String × Position) (a : RecommendedAction)
    (hf : sellActionFor env data candidates alloc horizon_days sp = some a) :
    a.action = "sell" ∧ a.symbol = sp.1 ∧ a.target_weight = 0 ∧
      List.lookup sp.1 alloc.weights = none := by
  rw [sellActionFor] at hf
  split at hf
  · exact absurd hf (by simp)
  · split at hf
    · exact absurd hf (by simp)
    · split_ifs at hf with h1 h2
      · cases hf
        exact ⟨rfl, rfl, rfl, Option.not_isSome_iff_eq_none.mp h1⟩

/-- Every buy action's symbol is a weight-dict key with its target weight as
value. -/
theorem buildBuyActions_spec (env : OrchestratorEnv) (data : RecommendData)
    (gatedKept : List Candidate) (alloc : AllocationResult) (horizon_days : ℤ)
    (hnd : (dkeys alloc.weights).Nodup) :
    ∀ a ∈ buildBuyActions env data gatedKept alloc horizon_days,
      a.action = "buy" ∧ List.lookup a.symbol alloc.weights = some a.target_weight := by
  intro a ha
  rw [buildBuyActions] at ha
  rcases List.mem_filterMap.mp ha with ⟨sw, hsw, hf⟩
  obtain ⟨hact, hsym, htw⟩ := buyActionFor_some env data gatedKept horizon_days sw a hf
  have hmem : sw ∈ alloc.weights := ((List.perm_insertionSort _ _).mem_iff).mp hsw
  refine ⟨hact, ?_⟩
  rw [hsym, htw]
  exact lookup_eq_some_of_mem _ sw.1 sw.2 hnd (by simpa using hmem)

/-- Every sell action has target weight 0 and a symbol outside the weight
dict. -/
theorem buildSellActions_spec (env : OrchestratorEnv) (data : RecommendData)
    (candidates : List Candidate) (alloc : AllocationResult) (horizon_days : ℤ) :
    ∀ a ∈ buildSellActions env data candidates alloc horizon_days,
      a.action = "sell" ∧ a.target_weight = 0 ∧
        List.lookup a.symbol alloc.weights = none := by
  intro a ha
  rw [buildSellActions] at ha
  rcases List.mem_filterMap.mp ha with ⟨sp, hsp, hf⟩
  obtain ⟨hact, hsym, htw, hnone⟩ :=
    sellActionFor_some env data candidates alloc horizon_days sp a hf
  exact ⟨hact, htw, by rw [hsym]; exact hnone⟩

/-- The overlay edit only touches entry_rule and invalidation. -/
theorem applyOverlay_fields (ps : List (String × PerSymbolText)) (a : RecommendedAction) :
    (applyOverlay ps a).symbol = a.symbol ∧ (applyOverlay ps a).action = a.action ∧
      (applyOverlay ps a).target_weight = a.target_weight := by
  rw [applyOverlay]
  cases List.lookup a.symbol ps <;> exact ⟨rfl, rfl, rfl⟩

/-- The weight dict used inside recommend has pairwise distinct keys. -/
theorem recommendAlloc_dkeys_nodup (env : OrchestratorEnv) (data : RecommendData)
    (cfg : GatingConfig) (horizon_days top_n : ℤ) :
    (dkeys (recommendAlloc env data cfg horizon_days top_n).weights).Nodup := by
  simp only [recommendAlloc]
  exact allocate_weights_dkeys_nodup _ _ _

/-- The actions of a successful recommend call are the buy actions followed by
the sell actions, each possibly rewritten by the overlay on its textual
fields only. -/
theorem recommend_ok_actions (ε : Type) (env : OrchestratorEnv) (data : RecommendData)
    (llm : LLMClient ε) (cfg : GatingConfig) (horizon_days top_n : ℤ)
    (out : RecommendationOutput)
    (hok : recommend ε env data llm cfg horizon_days top_n = Except.ok out) :
    ∃ ps, out.recommended_actions =
      (buildBuyActions env data (gate_candidates (buildCandidates env data horizon_days) cfg).kept
          (recommendAlloc env data cfg horizon_days top_n) horizon_days ++
        buildSellActions env data (buildCandidates env data horizon_days)
          (recommendAlloc env data cfg horizon_days top_n) horizon_days).map
        (applyOverlay ps) := by
  simp only [recommend] at hok
  split at hok
  · split at hok
    · exact absurd hok (by simp)
    · rename_i rendered _
      cases hok
      exact ⟨rendered.per_symbol, rfl⟩
  · cases hok
    refine ⟨[], ?_⟩
    have hid : ∀ a, applyOverlay [] a = a := fun a => rfl
    rw [funext hid]
    simp

/-- Every action of a successful recommend call is a BUY whose target weight
is its symbol's weight in the internal allocation, or a SELL with target
weight 0 whose symbol is not allocated. -/
theorem recommend_actions_spec (ε : Type) (env : OrchestratorEnv) (data : RecommendData)
    (llm : LLMClient ε) (cfg : GatingConfig) (horizon_days top_n : ℤ)
    (out : RecommendationOutput)
    (hok : recommend ε env data llm cfg horizon_days top_n = Except.ok out) :
    ∀ a ∈ out.recommended_actions,
      (a.action = "buy" ∧
        List.lookup a.symbol (recommendAlloc env data cfg horizon_days top_n).weights =
          some a.target_weight) ∨
      (a.action = "sell" ∧ a.target_weight = 0 ∧
        List.lookup a.symbol (recommendAlloc env data cfg horizon_days top_n).weights =
          none) := by
  intro a ha
  obtain ⟨ps, hacts⟩ := recommend_ok_actions ε env data llm cfg horizon_days top_n out hok
  rw [hacts] at ha
  rcases List.mem_map.mp ha with ⟨a0, ha0, rfl⟩
  obtain ⟨hsym, hact, htw⟩ := applyOverlay_fields ps a0
  rcases List.mem_append.mp ha0 with hb | hs
  · obtain ⟨h1, h2⟩ := buildBuyActions_spec env data _ _ _
      (recommendAlloc_dkeys_nodup env data cfg horizon_days top_n) a0 hb
    left
    refine ⟨hact.trans h1, ?_⟩
    rw [hsym, htw]
    exact h2
  · obtain ⟨h1, h2, h3⟩ := buildSellActions_spec env data _ _ _ a0 hs
    right
    refine ⟨hact.trans h1, htw.trans h2, ?_⟩
    rw [hsym]
    exact h3

/-- C3: in every RecommendationOutput produced by recommend, no symbol
appears both in a buy action and in a sell action — sell actions are only
emitted for held symbols that are not keys of the allocation weights, from
which all buy actions are drawn. -/
theorem recommend_buy_sell_disjoint (ε : Type) (env : OrchestratorEnv)
    (data : RecommendData) (llm : LLMClient ε) (cfg : GatingConfig)
    (horizon_days top_n : ℤ) (out : RecommendationOutput)
    (hok : recommend ε env data llm cfg horizon_days top_n = Except.ok out)
    (a1 a2 : RecommendedAction)
    (h1 : a1 ∈ out.recommended_actions) (h2 : a2 ∈ out.recommended_actions)
    (hb : a1.action = "buy") (hs : a2.action = "sell") : a1.symbol ≠ a2.symbol := by
  rcases recommend_actions_spec ε env data llm cfg horizon_days top_n out hok a1 h1 with
    ⟨_, hw1⟩ | ⟨hact, _, _⟩
  · rcases recommend_actions_spec ε env data llm cfg horizon_days top_n out hok a2 h2 with
      ⟨hact2, _⟩ | ⟨_, _, hw2⟩
    · rw [hs] at hact2
      exact absurd hact2 (by decide)
    · intro heq
      rw [heq] at hw1
      rw [hw1] at hw2
      exact absurd hw2 (by simp)
  · rw [hb] at hact
    exact absurd hact (by decide)

/-- C10: every sell action of a successful recommend call has target weight
exactly 0, and every buy action's target weight equals its symbol's weight in
the allocation result computed inside recommend. -/
theorem recommend_action_target_weights (ε : Type) (env : OrchestratorEnv)
    (data : RecommendData) (llm : LLMClient ε) (cfg : GatingConfig)
    (horizon_days top_n : ℤ) (out : RecommendationOutput)
    (hok : recommend ε env data llm cfg horizon_days top_n = Except.ok out) :
    ∀ a ∈ out.recommended_actions,
      (a.action = "sell" → a.target_weight = 0) ∧
      (a.action = "buy" →
        List.lookup a.symbol (recommendAlloc env data cfg horizon_days top_n).weights =
          some a.target_weight) := by
  intro a ha
  rcases recommend_actions_spec ε env data llm cfg horizon_days top_n out hok a ha with
    ⟨hact, hw⟩ | ⟨hact, htw, _⟩
  · constructor
    · intro hsell
      rw [hact] at hsell
      exact absurd hsell (by decide)
    · intro _
      exact hw
  · constructor
    · intro _
      exact htw
    · intro hbuy
      rw [hact] at hbuy
      exact absurd hbuy (by decide)

/-! ### Concrete runs of the recommendation pipeline -/

/-- Environment for the concrete runs: `sqrtq` takes its true values at the
points where the pipeline evaluates it (sqrt 1 = 1 for the horizon factors,
sqrt 1000000 = 1000 for the spread proxies) and model quality is the constant
0.7 (inside deterministic_model_quality's range [0.6, 0.8]). -/
def envW : OrchestratorEnv :=
  { sqrtq := fun q => if q = 1000000 then 1000 else if q = 1 then 1 else 0,
    model_quality := fun _ => 7/10 }

/-- Features of symbol AAA: positive 5-day momentum. -/
def featAAA : SymbolFeatures := ⟨"AAA", 100, 1/10, 1/10, 1, 1000000⟩

/-- Features of symbol BBB (a held position): negative 5-day momentum. -/
def featBBB : SymbolFeatures := ⟨"BBB", 50, -(1/10), 1/10, 1, 1000000⟩

/-- Concrete data: two symbols with usable features, one held position (BBB),
stock constraints max weight 0.25, min cash 0.15, max positions 8. -/
def dataW : RecommendData :=
  { portfolio := ⟨0, [⟨"BBB", 100, 50⟩], ⟨1/4, 15/100, 8⟩, RiskProfile.moderate⟩,
    feats := [("AAA", featAAA), ("BBB", featBBB)],
    sent_agg := [], news_ev := [], macroSeries := [], usdvnd := [],
    fundamentals_snap := [], forecast_bundle := [] }

/-- A disabled overlay. -/
def llmOff : LLMClient Unit := ⟨false, fun _ => Except.ok ⟨none, []⟩⟩

/-- An enabled overlay whose render_text_fields always raises. -/
def llmThrow : LLMClient Unit := ⟨true, fun _ => Except.error ()⟩

/-- The output of the concrete disabled-overlay run. -/
def outW : RecommendationOutput :=
  (recommend Unit envW dataW llmOff {} 1 3).toOption.getD default

/-- Uppercasing the held symbol of the concrete runs. -/
theorem pyUpper_BBB : pyUpper "BBB" = "BBB" := by decide

/-- Ground string comparisons of the concrete runs. -/
theorem beqAB : ("AAA" == "BBB") = false := by decide

theorem beqBA : ("BBB" == "AAA") = false := by decide

theorem beqAA : ("AAA" == "AAA") = true := by decide

theorem beqBB : ("BBB" == "BBB") = true := by decide

set_option maxHeartbeats 4000000 in
/-- The concrete disabled-overlay run succeeds; its action list holds the buy
(AAA, weight 1/4) at index 0 and the sell (BBB) at index 1. -/
theorem outW_run :
    recommend Unit envW dataW llmOff ({} : GatingConfig) 1 3 = Except.ok outW ∧
      (outW.recommended_actions.getD 0 default).action = "buy" ∧
      (outW.recommended_actions.getD 1 default).action = "sell" ∧
      outW.recommended_actions.getD 0 default ∈ outW.recommended_actions ∧
      outW.recommended_actions.getD 1 default ∈ outW.recommended_actions := by
  refine ⟨?_, ?_, ?_, ?_, ?_⟩ <;>
    norm_num +decide [outW, recommend, recommendPayload, recommendAlloc, buildCandidates,
      buildBuyActions, buildSellActions, buyActionFor, sellActionFor, buyEvidence,
      buyUncertaintyBand, uncertainty_band_from_vol, spread_proxy_from_liquidity_and_vol,
      pyGe, build_order_plan, build_risk_controls, kParams, confidenceOf,
      sentiment_to_return_boost, fundamentals_boost, gate_candidates, gatePass, gateRebuild,
      gateReasons, gateKey, allocate_weights, allocNormal, scoreOf, pyTake, dictOf, dinsert,
      dsum, mapValues, step_clamp, step_capInvestable, step_minCash, applyOverlay,
      notesSuffix, pyUpper_BBB, beqAB, beqBA, beqAA, beqBB, envW, dataW, llmOff, featAAA, featBBB, List.insertionSort,
      List.orderedInsert, Int.toNat, List.take, min_def, max_def, List.lookup, List.find?,
      List.filterMap, Except.toOption, abs]

/-- Witness for C3 at the concrete run: one buy (AAA) and one sell (BBB),
whose symbols differ. -/
theorem recommend_buy_sell_disjoint_witness :
    recommend Unit envW dataW llmOff ({} : GatingConfig) 1 3 = Except.ok outW ∧
      (outW.recommended_actions.getD 0 default).symbol ≠
        (outW.recommended_actions.getD 1 default).symbol :=
  ⟨outW_run.1,
    recommend_buy_sell_disjoint Unit envW dataW llmOff {} 1 3 outW outW_run.1 _ _
      outW_run.2.2.2.1 outW_run.2.2.2.2 outW_run.2.1 outW_run.2.2.1⟩

/-- Witness for C10 at the concrete run: the buy action's target weight is
its symbol's allocated weight and the sell action's target weight is 0. -/
theorem recommend_action_target_weights_witness :
    recommend Unit envW dataW llmOff ({} : GatingConfig) 1 3 = Except.ok outW ∧
      List.lookup (outW.recommended_actions.getD 0 default).symbol
          (recommendAlloc envW dataW {} 1 3).weights =
        some (outW.recommended_actions.getD 0 default).target_weight ∧
      (outW.recommended_actions.getD 1 default).target_weight = 0 :=
  ⟨outW_run.1,
    (recommend_action_target_weights Unit envW dataW llmOff {} 1 3 outW outW_run.1 _
      outW_run.2.2.2.1).2 outW_run.2.1,
    (recommend_action_target_weights Unit envW dataW llmOff {} 1 3 outW outW_run.1 _
      outW_run.2.2.2.2).1 outW_run.2.2.1⟩

/-- C5 counterexample: with an enabled overlay whose `render_text_fields`
raises, `recommend` itself fails — orchestrator.py has no try/except around
the call (lines 318-325), so the error is NOT caught locally and NOT replaced
by the deterministic template, refuting the claim that an overlay failure
never causes recommend to fail. -/
theorem recommend_overlay_error_not_caught :
    recommend Unit envW dataW llmThrow ({} : GatingConfig) 1 3 = Except.error () := by
  norm_num +decide [recommend, recommendPayload, recommendAlloc, buildCandidates,
    buildBuyActions, buildSellActions, buyActionFor, sellActionFor, buyEvidence,
    buyUncertaintyBand, uncertainty_band_from_vol, spread_proxy_from_liquidity_and_vol,
    pyGe, build_order_plan, build_risk_controls, kParams, confidenceOf,
    sentiment_to_return_boost, fundamentals_boost, gate_candidates, gatePass, gateRebuild,
    gateReasons, gateKey, allocate_weights, allocNormal, scoreOf, pyTake, dictOf, dinsert,
    dsum, mapValues, step_clamp, step_capInvestable, step_minCash, applyOverlay,
    notesSuffix, pyUpper_BBB, beqAB, beqBA, beqAA, beqBB, envW, dataW, llmThrow, featAAA,
    featBBB, List.insertionSort, List.orderedInsert, Int.toNat, List.take, min_def, max_def,
    List.lookup, List.find?, List.filterMap, abs]

/-- C5 amended: when the overlay is disabled, recommend always returns a
complete output (with the deterministic template notes); when the enabled
overlay's render raises, the error propagates out of recommend — the
deterministic template is used only in the disabled case, not on failure. -/
theorem recommend_overlay_failure_behavior (ε : Type) (env : OrchestratorEnv)
    (data : RecommendData) (llm : LLMClient ε) (cfg : GatingConfig)
    (horizon_days top_n : ℤ) :
    (llm.enabled = false →
      ∃ out, recommend ε env data llm cfg horizon_days top_n = Except.ok out) ∧
    (∀ e : ε, llm.enabled = true →
      llm.render_text_fields (recommendPayload env data cfg horizon_days top_n) =
        Except.error e →
      recommend ε env data llm cfg horizon_days top_n = Except.error e) := by
  constructor
  · intro hdis
    simp only [recommend, hdis]
    exact ⟨_, rfl⟩
  · intro e hen herr
    simp only [recommend, hen, if_true]
    rw [herr]

/-- Witness for the amended C5 at concrete inputs: the disabled run returns
ok, the throwing enabled run returns the error. -/
theorem recommend_overlay_failure_behavior_witness :
    (∃ out, recommend Unit envW dataW llmOff ({} : GatingConfig) 1 3 = Except.ok out) ∧
      recommend Unit envW dataW llmThrow ({} : GatingConfig) 1 3 = Except.error () :=
  ⟨(recommend_overlay_failure_behavior Unit envW dataW llmOff {} 1 3).1 rfl,
    (recommend_overlay_failure_behavior Unit envW dataW llmThrow {} 1 3).2 () rfl rfl⟩

/-- Concrete data with a forecast bundle for AAA whose uncertainty_sigma is
-1 (so the sigma-path band scale is -1·sqrt(max(1,1)) = -1 ≤ 0). -/
def dataC6 : RecommendData :=
  { dataW with forecast_bundle := [("AAA", ⟨some (1/10), some (-1), some (7/10)⟩)] }

/-- The output of the concrete run with the sigma -1 forecast bundle. -/
def outC6 : RecommendationOutput :=
  (recommend Unit envW dataC6 llmOff {} 1 3).toOption.getD default

set_option maxHeartbeats 4000000 in
/-- C6 counterexample: in the concrete run whose forecast bundle carries
`uncertainty_sigma = -1` (band scale -1 ≤ 0, horizon 1), the produced buy
action's uncertainty band is NOT collapsed to the point estimate: its p10
differs from p50 (in fact p10 = er + 1.2816 > er = p50 — the band is
inverted, not collapsed), refuting the claim's external-sigma half. -/
theorem recommend_sigma_band_not_collapsed :
    recommend Unit envW dataC6 llmOff ({} : GatingConfig) 1 3 = Except.ok outC6 ∧
      (outC6.recommended_actions.getD 0 default).action = "buy" ∧
      (outC6.recommended_actions.getD 0 default).uncertainty_band.p10 ≠
        (outC6.recommended_actions.getD 0 default).uncertainty_band.p50 := by
  refine ⟨?_, ?_, ?_⟩ <;>
    norm_num +decide [outC6, dataC6, recommend, recommendPayload, recommendAlloc,
      buildCandidates, buildBuyActions, buildSellActions, buyActionFor, sellActionFor,
      buyEvidence, buyUncertaintyBand, uncertainty_band_from_vol,
      spread_proxy_from_liquidity_and_vol, pyGe, build_order_plan, build_risk_controls,
      kParams, confidenceOf, sentiment_to_return_boost, fundamentals_boost, gate_candidates,
      gatePass, gateRebuild, gateReasons, gateKey, allocate_weights, allocNormal, scoreOf,
      pyTake, dictOf, dinsert, dsum, mapValues, step_clamp, step_capInvestable, step_minCash,
      applyOverlay, notesSuffix, pyUpper_BBB, beqAB, beqBA, beqAA, beqBB, envW, dataW,
      llmOff, featAAA, featBBB, List.insertionSort, List.orderedInsert, Int.toNat, List.take,
      min_def, max_def, List.lookup, List.find?, List.filterMap, Except.toOption, abs]

/-- C6 amended: the collapse to the point estimate holds on the
realized-volatility path — `uncertainty_band_from_vol` returns (er, er, er)
whenever the volatility is ≤ 0 or horizon_days ≤ 0 (non-finite floats are
outside the rational model) — but on the external-sigma path there is no
guard at all: the band is always er ∓ 1.2816·sigma·sqrt(max(1,horizon)),
whatever the sign of sigma, and horizon_days ≤ 0 is clamped by max(1,·)
rather than collapsing the band. -/
theorem uncertainty_band_collapse_amended :
    (∀ (er vol : ℚ) (h : ℤ) (s : ℚ), vol ≤ 0 ∨ h ≤ 0 →
      uncertainty_band_from_vol er vol h s = (er, er, er)) ∧
    (∀ (fe : ForecastEntry) (sigma er vol : ℚ) (h : ℤ) (sM sH : ℚ),
      fe.uncertainty_sigma = some sigma →
      buyUncertaintyBand (some fe) er vol h sM sH =
        (er - 12816/10000 * (sigma * sM), er, er + 12816/10000 * (sigma * sM))) := by
  constructor
  · intro er vol h s hc
    rw [uncertainty_band_from_vol, if_pos hc]
  · intro fe sigma er vol h sM sH hs
    rw [buyUncertaintyBand, hs]

/-- Witness for the amended C6 at concrete inputs: a zero-volatility band
collapses; a bundle entry with sigma = -1 yields the uncollapsed interval. -/
theorem uncertainty_band_collapse_amended_witness :
    uncertainty_band_from_vol (1/20) 0 10 3 = (1/20, 1/20, 1/20) ∧
      buyUncertaintyBand (some ⟨some (1/10), some (-1), some (7/10)⟩) (17/200) (1/10) 1 1 1 =
        (17/200 - 12816/10000 * (-1 * 1), 17/200, 17/200 + 12816/10000 * (-1 * 1)) :=
  ⟨uncertainty_band_collapse_amended.1 (1/20) 0 10 3 (Or.inl le_rfl),
    uncertainty_band_collapse_amended.2 ⟨some (1/10), some (-1), some (7/10)⟩ (-1) (17/200)
      (1/10) 1 1 1 rfl⟩
